import Mathlib

/-!
Verification of the Pamir-AI esp32-agent-example repository.

This file gives a shallow embedding of the three cores of the repository:
  * the snake game of `src/examples/Snake/WS_Matrix.cpp`,
  * the falling-stars particle simulator of
    `src/examples/FallingStars/src/main.cpp`,
  * the coordinate mapper `MU_XY` of `src/lib/MatrixUtil/MatrixUtil.h`,
and proves or refutes the frozen claims about them.
-/

set_option maxHeartbeats 1000000
set_option maxRecDepth 10000

namespace Snake

/-- Board constants from `WS_Matrix.h`: `Matrix_Row`, `Matrix_Col`,
`MAX_SNAKE_LENGTH`. -/
def Matrix_Row : ℕ := 8

/-- Column count of the 8x8 LED matrix, from `WS_Matrix.h`. -/
def Matrix_Col : ℕ := 8

/-- Maximum possible snake length (entire board), from `WS_Matrix.h`. -/
def MAX_SNAKE_LENGTH : ℕ := 64

/-- A cell of the board; the C `struct Point` with `int8_t x; int8_t y;`.
Coordinates are modelled as integers; the `int8_t` increment/decrement in
`MoveSnake` is wrapped through `wrap8` below so the embedding agrees with
8-bit two's-complement arithmetic on every input. -/
structure Point where
  x : ℤ
  y : ℤ
deriving DecidableEq

/-- Two's-complement wrap of an integer into the `int8_t` range
`[-128, 127]`, used for the `++`/`--` operations on coordinates. -/
def wrap8 (z : ℤ) : ℤ := (z + 128) % 256 - 128

/-- The full game state of `WS_Matrix.cpp`: the global array `snake`
(modelled as a total function from index to `Point`; the C array has 64
entries and only indices below `snakeLength` are meaningful), the global
`snakeLength`, `food` and `gameOver`. -/
structure SnakeState where
  snake : ℕ → Point
  snakeLength : ℕ
  food : Point
  gameOver : Bool

/-- The direction `switch` of `MoveSnake` (lines 87-100): 0 = up
(`x--`), 1 = right (`y++`), 2 = down (`x++`), 3 = left (`y--`); any other
direction value falls through the `switch` and leaves `newHead` equal to
the current head. -/
def stepDir (h : Point) (d : ℕ) : Point :=
  match d with
  | 0 => ⟨wrap8 (h.x - 1), h.y⟩
  | 1 => ⟨h.x, wrap8 (h.y + 1)⟩
  | 2 => ⟨wrap8 (h.x + 1), h.y⟩
  | 3 => ⟨h.x, wrap8 (h.y - 1)⟩
  | _ => h

/-- The wall wrap of `MoveSnake` (lines 103-106): four sequential `if`
statements sending a coordinate below 0 to the far edge and a coordinate
at or beyond the edge to 0. -/
def wrapPos (p : Point) : Point :=
  let x1 := if p.x < 0 then (Matrix_Row : ℤ) - 1 else p.x
  let x2 := if (Matrix_Row : ℤ) ≤ x1 then 0 else x1
  let y1 := if p.y < 0 then (Matrix_Col : ℤ) - 1 else p.y
  let y2 := if (Matrix_Col : ℤ) ≤ y1 then 0 else y1
  ⟨x2, y2⟩

/-- The self-collision scan of `MoveSnake` (lines 115-121): indices from
2 up to `snakeLength - 1` are compared with the new head. -/
def selfHit (b : ℕ → Point) (len : ℕ) (nh : Point) : Bool :=
  (List.range len).any (fun i => decide (2 ≤ i) && decide (b i = nh))

/-- The descending body-shift loops of `MoveSnake` (lines 129-131 and
135-137): after the loop, index `i` holds the old segment `i - 1` for
`1 ≤ i ≤ upTo`, and every other index is unchanged. -/
def shiftBody (b : ℕ → Point) (upTo : ℕ) : ℕ → Point :=
  fun i => if 1 ≤ i ∧ i ≤ upTo then b (i - 1) else b i

/-- The final head placement `snake[0] = newHead` (line 144). -/
def setHead (b : ℕ → Point) (nh : Point) : ℕ → Point :=
  fun i => if i = 0 then nh else b i

/-- Membership test of `GenerateFood`'s inner loop (lines 64-69): does a
candidate point lie on one of the first `len` body segments. -/
def onBody (b : ℕ → Point) (len : ℕ) (p : Point) : Bool :=
  (List.range len).any (fun i => decide (b i = p))

/-- The `GenerateFood` loop of lines 55-71, made total with explicit
fuel; the C loop runs forever when no free cell is ever drawn, which the
embedding reports as `none`.  `rng k` models the value of the k-th call
of Arduino `random(0, 8)`; it is reduced mod 8 so the stream always lies
in the range the C call returns.  Returns the generated food point and
the next unread rng position. -/
def generateFood : ℕ → (ℕ → ℕ) → ℕ → (ℕ → Point) → ℕ → Option (Point × ℕ)
  | 0, _, _, _, _ => none
  | fuel + 1, rng, k, b, len =>
    let cand : Point := ⟨((rng k : ℕ) % 8 : ℕ), ((rng (k + 1) : ℕ) % 8 : ℕ)⟩
    if onBody b len cand then generateFood fuel rng (k + 2) b len
    else some (cand, k + 2)

/-- The new head `MoveSnake` computes on lines 84-106: offset the head
by the direction, then wrap at the walls. -/
def newHead (s : SnakeState) (d : ℕ) : Point :=
  wrapPos (stepDir (s.snake 0) d)

/-- The `MoveSnake` function of `WS_Matrix.cpp` lines 80-147.  Return
value 0 = game over, 1 = normal move, 2 = food eaten, paired with the
state after the call.  `none` models the case where `GenerateFood` never
terminates (fuel exhausted). -/
def moveSnake (fuel : ℕ) (rng : ℕ → ℕ) (s : SnakeState) (d : ℕ) :
    Option (ℕ × SnakeState) :=
  if s.gameOver then some (0, s)
  else if 1 < s.snakeLength ∧ s.snake 1 = newHead s d then some (1, s)
  else if selfHit s.snake s.snakeLength (newHead s d) then
    some (0, { s with gameOver := true })
  else if newHead s d = s.food then
    if s.snakeLength < MAX_SNAKE_LENGTH then
      match generateFood fuel rng 0 (shiftBody s.snake s.snakeLength) (s.snakeLength + 1) with
      | none => none
      | some fk =>
        some (2, { snake := setHead (shiftBody s.snake s.snakeLength) (newHead s d),
                   snakeLength := s.snakeLength + 1, food := fk.1, gameOver := s.gameOver })
    else
      some (2, { s with snake := setHead s.snake (newHead s d) })
  else
    some (1, { s with snake := setHead (shiftBody s.snake (s.snakeLength - 1)) (newHead s d) })

/-- The `Snake_Init` routine of lines 41-52; food placement consumes the
rng stream through `generateFood`. -/
def snakeInit (fuel : ℕ) (rng : ℕ → ℕ) : Option SnakeState :=
  let b : ℕ → Point := fun i =>
    if i = 0 then ⟨4, 4⟩ else if i = 1 then ⟨3, 4⟩ else if i = 2 then ⟨2, 4⟩ else ⟨0, 0⟩
  match generateFood fuel rng 0 b 3 with
  | none => none
  | some fk => some { snake := b, snakeLength := 3, food := fk.1, gameOver := false }

/-- A point lies on the 8x8 board. -/
def inRange (p : Point) : Prop :=
  0 ≤ p.x ∧ p.x < (Matrix_Row : ℤ) ∧ 0 ≤ p.y ∧ p.y < (Matrix_Col : ℤ)

instance (p : Point) : Decidable (inRange p) := by
  unfold inRange; infer_instance

/-- A constant random stream, for concrete evaluations. -/
def rz : ℕ → ℕ := fun _ => 0

/-- The freshly initialized body of `Snake_Init`: head (4,4), body
(3,4), tail (2,4); cells beyond the length hold an arbitrary value. -/
def csBody : ℕ → Point := fun i =>
  if i = 0 then ⟨4, 4⟩ else if i = 1 then ⟨3, 4⟩ else if i = 2 then ⟨2, 4⟩ else ⟨7, 7⟩

/-- A concrete playing state: the `Snake_Init` body with food at
(0,0). -/
def cs0 : SnakeState :=
  { snake := csBody, snakeLength := 3, food := ⟨0, 0⟩, gameOver := false }

/-- A concrete state whose game-over latch is set. -/
def csOver : SnakeState :=
  { snake := csBody, snakeLength := 3, food := ⟨0, 0⟩, gameOver := true }

/-- A concrete playing state with the food one cell to the right of the
head, so that direction 1 eats it. -/
def csEat : SnakeState :=
  { snake := csBody, snakeLength := 3, food := ⟨4, 5⟩, gameOver := false }

/-- A concrete state at full capacity (`snakeLength = 64`) whose head
(0,0) can step right onto the food (0,1) without touching the rest of
the body (all other slots hold (7,7)). -/
def cs64 : SnakeState :=
  { snake := fun i => if i = 0 then ⟨0, 0⟩ else ⟨7, 7⟩,
    snakeLength := 64, food := ⟨0, 1⟩, gameOver := false }

end Snake

namespace Stars

/-- Modelled from the spec: the board configuration header
(`config/BoardConfig.h`) that defines `MATRIX_WIDTH` is not among the
sources; the spec's worked examples fix the panel at W = 8. -/
def MATRIX_WIDTH : ℕ := 8

/-- Modelled from the spec: `MATRIX_HEIGHT` of the missing
`config/BoardConfig.h`, fixed at H = 8 by the spec's examples. -/
def MATRIX_HEIGHT : ℕ := 8

/-- Particle pool capacity, `#define MAX_PARTICLES 12` in `main.cpp`. -/
def MAX_PARTICLES : ℕ := 12

/-- An RGB color value (the three `CRGB` channels). -/
def RGB : Type := ℕ × ℕ × ℕ

instance : DecidableEq RGB := by unfold RGB; infer_instance

/-- The C `struct Particle` of `main.cpp`: float position, vertical
velocity, color and the active flag.  The program only ever adds the
constant 0.3 to `vy` and `vy` to `y`, and assigns an integer to `x`, so
every value these floats take is an exact integer multiple of 0.1; the
embedding stores `y` and `vy` in integer tenths (field `y10` holds 10*y)
and `x` as the integer it always is, which represents the idealized real
arithmetic exactly. -/
structure Particle where
  x : ℤ
  y10 : ℤ
  vy10 : ℤ
  color : RGB
  active : Bool

/-- The simulator state: the particle pool (a total function; the C
array has `MAX_PARTICLES` slots and only indices below 12 are ever
touched) and the settled grid `uint8_t grid[W][H]`, modelled as a total
function on integer indices so that the C out-of-bounds hazard noted in
the spec needs no side condition. -/
structure PState where
  particles : ℕ → Particle
  grid : ℤ → ℤ → ℕ

/-- Pointwise update of a function pool at one slot. -/
def updateFn (f : ℕ → Particle) (i : ℕ) (v : Particle) : ℕ → Particle :=
  fun j => if j = i then v else f j

/-- Write one cell of the settled grid. -/
def gridWrite (g : ℤ → ℤ → ℕ) (a b : ℤ) (v : ℕ) : ℤ → ℤ → ℕ :=
  fun x y => if x = a ∧ y = b then v else g x y

/-- C cast `(int)y` applied to a value stored in tenths: truncation
toward zero, as the C float-to-int conversion does. -/
def floorTenths (t : ℤ) : ℤ := Int.tdiv t 10

/-- The fixed 6-color palette of `spawnParticle` (lines 54-61): red,
green, blue, yellow, magenta, cyan for choices 0-5. -/
def palette (c : Fin 6) : RGB :=
  match c.val with
  | 0 => (255, 0, 0)
  | 1 => (0, 255, 0)
  | 2 => (0, 0, 255)
  | 3 => (255, 255, 0)
  | 4 => (255, 0, 255)
  | _ => (0, 255, 255)

/-- The `spawnParticle` routine (lines 44-65): scan the pool for the
first inactive slot; if one exists, restart it at row 0 of the drawn
column with velocity 0, a palette color and `active = true`.  `col`
models `random(0, MATRIX_WIDTH)` and `ch` models `random(0, 6)`. -/
def spawnParticle (col : Fin 8) (ch : Fin 6) (s : PState) : PState :=
  match (List.range MAX_PARTICLES).find? (fun i => !(s.particles i).active) with
  | none => s
  | some i =>
    let fresh : Particle :=
      { x := (col.val : ℤ), y10 := 0, vy10 := 0, color := palette ch, active := true }
    { s with particles := updateFn s.particles i fresh }

/-- One iteration of the physics loop of `loop()` (lines 74-93) for slot
`i`: gravity (`vy += 0.3`, i.e. 3 tenths), position update, then
settlement either at the bottom row or on top of an occupied cell below.
`ix = (int)x` is `p.x` itself because `x` always holds an integer, and
`iy = (int)y` is the truncation of the tenths value. -/
def stepParticle (s : PState) (i : ℕ) : PState :=
  let p := s.particles i
  if p.active then
    let vy := p.vy10 + 3
    let y := p.y10 + vy
    let ix := p.x
    let iy := floorTenths y
    if (MATRIX_HEIGHT : ℤ) - 1 ≤ iy then
      { particles := updateFn s.particles i { p with y10 := y, vy10 := vy, active := false },
        grid := gridWrite s.grid ix ((MATRIX_HEIGHT : ℤ) - 1) (i + 1) }
    else if 0 ≤ iy ∧ iy < (MATRIX_HEIGHT : ℤ) - 1 then
      if s.grid ix (iy + 1) ≠ 0 then
        { particles := updateFn s.particles i { p with y10 := y, vy10 := vy, active := false },
          grid := gridWrite s.grid ix iy (i + 1) }
      else
        { s with particles := updateFn s.particles i { p with y10 := y, vy10 := vy } }
    else
      { s with particles := updateFn s.particles i { p with y10 := y, vy10 := vy } }
  else s

/-- The whole physics pass of one `loop()` call: slots 0 to 11 in
order. -/
def physicsPhase (s : PState) : PState :=
  (List.range MAX_PARTICLES).foldl stepParticle s

/-- The random outcomes of one `loop()` tick: `none` when
`random(0,100) < 30` failed (no spawn), otherwise the column and color
draws of the resulting `spawnParticle` call. -/
def TickInput : Type := Option (Fin 8 × Fin 6)

/-- One `loop()` call (lines 67-122) restricted to state mutation: the
optional spawn, then the physics pass.  Rendering reads the state but
does not change it. -/
def tick (inp : TickInput) (s : PState) : PState :=
  physicsPhase (match inp with | none => s | some pr => spawnParticle pr.1 pr.2 s)

/-- The state after `setup()` (lines 21-42): every particle inactive,
every grid cell zero.  The C prognosis leaves the numeric fields of the
pool uninitialized; they are modelled as zero and are never read while a
particle is inactive. -/
def initState : PState :=
  { particles := fun _ => { x := 0, y10 := 0, vy10 := 0, color := (0, 0, 0), active := false },
    grid := fun _ _ => 0 }

/-- Reachability: the states the simulator can be in after `setup()`
and any finite sequence of `loop()` ticks with any random outcomes. -/
inductive Reach : PState → Prop where
  | start : Reach initState
  | step (s : PState) (inp : TickInput) : Reach s → Reach (tick inp s)

/-- State reached by a concrete list of tick inputs. -/
def traceState (l : List TickInput) : PState :=
  l.foldl (fun s i => tick i s) initState

/-- The color the settled-particle render pass (lines 99-106) writes for
a cell: the current stored color of the slot the cell refers to, or
nothing when the cell is empty. -/
def settledColorAt (s : PState) (x y : ℤ) : Option RGB :=
  if s.grid x y ≠ 0 then some (s.particles (s.grid x y - 1)).color else none

/-- Grid-ownership sanity: every occupied cell holds a slot id of the
pool, i.e. a value in [1, MAX_PARTICLES]. -/
def gridInv (s : PState) : Prop :=
  ∀ x y : ℤ, s.grid x y ≠ 0 → s.grid x y ≤ MAX_PARTICLES

/-- Tick inputs that spawn one particle in column 0 at tick 1, let it
fall to the bottom (it settles during tick 7, writing id 1 into cell
(0,7)), then spawn again at tick 8; the spawn scans for the first
inactive slot and therefore reuses slot 0, which cell (0,7) still
references. -/
def l1 : List TickInput :=
  [some ((0 : Fin 8), (0 : Fin 6)), none, none, none, none, none, none,
   some ((0 : Fin 8), (1 : Fin 6))]

/-- Tick inputs that produce a settled-cell overwrite: a particle in
slot 0 settles at (0,7) during tick 7; tick 7 also spawns into slot 1
(column 3) and tick 8 spawns into the now-free slot 0 (column 3).  The
slot-1 particle passes row 6 at tick 12 while (3,7) is still empty,
settles at (3,7) during tick 13 — but the slot-0 particle passed row 6
earlier in tick 13, so at tick 14 it reaches `iy ≥ 7` and overwrites
cell (3,7). -/
def l13 : List TickInput :=
  [some ((0 : Fin 8), (0 : Fin 6)), none, none, none, none, none,
   some ((3 : Fin 8), (0 : Fin 6)), some ((3 : Fin 8), (0 : Fin 6)),
   none, none, none, none, none]

end Stars

namespace MatrixUtil

/-- A panel configuration of `MatrixUtil.h`: the preprocessor switches
`PANEL_ROTATION` (encoded 0 ↦ 0°, 1 ↦ 90°, 2 ↦ 180°, 3 ↦ 270°),
`PANEL_FLIP_X`, `PANEL_FLIP_Y` and `PANEL_WIRING_SERPENTINE`, turned
into a runtime value so the mapping can be quantified over every fixed
configuration. -/
def PanelCfg : Type := Fin 4 × Bool × Bool × Bool

instance : DecidableEq PanelCfg := by unfold PanelCfg; infer_instance

instance : Fintype PanelCfg := by unfold PanelCfg; infer_instance

/-- The clockwise rotation block of `MU_XY` (lines 44-55): 90° maps
(x,y) to (W-1-y, x), 180° to (W-1-x, H-1-y), 270° to (y, H-1-x), and 0°
is the identity. -/
def rotXY (r : ℕ) (x y : ℕ) : ℕ × ℕ :=
  match r with
  | 1 => (Stars.MATRIX_WIDTH - 1 - y, x)
  | 2 => (Stars.MATRIX_WIDTH - 1 - x, Stars.MATRIX_HEIGHT - 1 - y)
  | 3 => (y, Stars.MATRIX_HEIGHT - 1 - x)
  | _ => (x, y)

/-- The `MU_XY` mapping of `MatrixUtil.h` lines 39-75: clamp the inputs
into range, rotate, apply the optional flips, then produce the linear
index, reversing odd rows when the wiring is serpentine. -/
def MU_XY (cfg : PanelCfg) (x0 y0 : ℕ) : ℕ :=
  let x1 := if Stars.MATRIX_WIDTH ≤ x0 then Stars.MATRIX_WIDTH - 1 else x0
  let y1 := if Stars.MATRIX_HEIGHT ≤ y0 then Stars.MATRIX_HEIGHT - 1 else y0
  let p := rotXY cfg.1.val x1 y1
  let x2 := if cfg.2.1 then Stars.MATRIX_WIDTH - 1 - p.1 else p.1
  let y2 := if cfg.2.2.1 then Stars.MATRIX_HEIGHT - 1 - p.2 else p.2
  if cfg.2.2.2 then
    if y2 % 2 = 1 then y2 * Stars.MATRIX_WIDTH + (Stars.MATRIX_WIDTH - 1 - x2)
    else y2 * Stars.MATRIX_WIDTH + x2
  else y2 * Stars.MATRIX_WIDTH + x2

/-- Restriction of `MU_XY` to the in-range cells. -/
def mapIdx (cfg : PanelCfg) (p : Fin 8 × Fin 8) : ℕ :=
  MU_XY cfg p.1.val p.2.val

theorem mapIdx_lt : ∀ (cfg : PanelCfg) (p : Fin 8 × Fin 8), mapIdx cfg p < 64 := by
  decide

/-- The in-range restriction of `MU_XY` as a function into `Fin 64`. -/
def mapFin (cfg : PanelCfg) (p : Fin 8 × Fin 8) : Fin 64 :=
  ⟨mapIdx cfg p, mapIdx_lt cfg p⟩

/-- The identity configuration: rotation 0, no flips, progressive
wiring. -/
def cfg0 : PanelCfg := ((0 : Fin 4), false, false, false)

end MatrixUtil

namespace Snake

theorem stepDir_default (h : Point) (d : ℕ) (hd : 4 ≤ d) : stepDir h d = h := by
  match d, hd with
  | n + 4, _ => rfl

theorem wrapPos_inRange (p : Point) : inRange (wrapPos p) := by
  simp only [wrapPos, inRange, Matrix_Row, Matrix_Col]
  split_ifs <;> simp_all

theorem wrapPos_id (p : Point) (h : inRange p) : wrapPos p = p := by
  obtain ⟨px, py⟩ := p
  obtain ⟨h1, h2, h3, h4⟩ := h
  simp only [Matrix_Row, Matrix_Col] at h1 h2 h3 h4
  simp only [wrapPos, Matrix_Row, Matrix_Col]
  split_ifs <;> simp_all <;> omega

theorem selfHit_eq_false (b : ℕ → Point) (len : ℕ) (nh : Point)
    (h : ∀ i, 2 ≤ i → i < len → b i ≠ nh) : selfHit b len nh = false := by
  apply List.any_eq_false.mpr
  intro i hi
  rw [List.mem_range] at hi
  simp only [Bool.and_eq_true, decide_eq_true_eq, not_and]
  intro h2
  exact h i h2 hi

/-- C9: the game-over latch is terminal: whenever `gameOver` is already
true, `MoveSnake` returns Blocked (0) immediately and changes nothing,
for every direction; the call is an idempotent no-op (and stays one on
every later call, since the state it returns is the state it was given,
until `Snake_Init` rebuilds the state from scratch). -/
theorem C9_gameOver_latch (fuel : ℕ) (rng : ℕ → ℕ) (s : SnakeState) (d : ℕ)
    (h : s.gameOver = true) : moveSnake fuel rng s d = some (0, s) := by
  unfold moveSnake
  rw [h]
  rfl

theorem C9_gameOver_latch_witness : moveSnake 1 rz csOver 5 = some (0, csOver) :=
  C9_gameOver_latch 1 rz csOver 5 rfl

/-- C5: the reversal guard: in a non-game-over state with body length
above 1, when the new head (after wrap) equals the second body segment,
`MoveSnake` returns Normal (1) and mutates nothing at all. -/
theorem C5_reversal_noop (fuel : ℕ) (rng : ℕ → ℕ) (s : SnakeState) (d : ℕ)
    (h0 : s.gameOver = false) (h1 : 1 < s.snakeLength)
    (h2 : s.snake 1 = newHead s d) :
    moveSnake fuel rng s d = some (1, s) := by
  unfold moveSnake
  rw [h0]
  simp only [Bool.false_eq_true, if_false]
  rw [if_pos ⟨h1, h2⟩]

theorem C5_reversal_noop_witness : moveSnake 1 rz cs0 0 = some (1, cs0) :=
  C5_reversal_noop 1 rz cs0 0 rfl (by decide) (by decide)

/-- C10: whenever `MoveSnake` returns, the returned code is one of
{0,1,2}, and it is 0 exactly when `gameOver` is true in the state the
call leaves behind (either it was already latched on entry or this call
latched it); codes 1 and 2 are returned only with `gameOver` false. -/
theorem C10_return_codes (fuel : ℕ) (rng : ℕ → ℕ) (s : SnakeState) (d : ℕ)
    (r : ℕ) (s' : SnakeState) (h : moveSnake fuel rng s d = some (r, s')) :
    r ≤ 2 ∧ (r = 0 ↔ s'.gameOver = true) := by
  unfold moveSnake at h
  split at h
  case isTrue hg =>
    simp only [Option.some.injEq, Prod.mk.injEq] at h
    obtain ⟨h1, h2⟩ := h
    subst h1; subst h2
    exact ⟨by omega, by simp [hg]⟩
  case isFalse hg =>
    rw [Bool.not_eq_true] at hg
    split at h
    · simp only [Option.some.injEq, Prod.mk.injEq] at h
      obtain ⟨h1, h2⟩ := h
      subst h1; subst h2
      exact ⟨by omega, by simp [hg]⟩
    · split at h
      · simp only [Option.some.injEq, Prod.mk.injEq] at h
        obtain ⟨h1, h2⟩ := h
        subst h1; subst h2
        exact ⟨by omega, by simp⟩
      · split at h
        · split at h
          · split at h
            · exact absurd h (by simp)
            · simp only [Option.some.injEq, Prod.mk.injEq] at h
              obtain ⟨h1, h2⟩ := h
              subst h1; subst h2
              exact ⟨by omega, by simp [hg]⟩
          · simp only [Option.some.injEq, Prod.mk.injEq] at h
            obtain ⟨h1, h2⟩ := h
            subst h1; subst h2
            exact ⟨by omega, by simp [hg]⟩
        · simp only [Option.some.injEq, Prod.mk.injEq] at h
          obtain ⟨h1, h2⟩ := h
          subst h1; subst h2
          exact ⟨by omega, by simp [hg]⟩

theorem C10_return_codes_witness :
    (1 : ℕ) ≤ 2 ∧ ((1 : ℕ) = 0 ↔ cs0.gameOver = true) :=
  C10_return_codes 1 rz cs0 0 1 cs0 rfl

/-- C6: for every valid direction in a non-game-over state, `MoveSnake`
preserves the body length, except when it returns Ate (2) with the
length still below capacity, in which case the length grows by exactly
one; in particular an Ate at full capacity leaves the length at the
capacity. -/
theorem C6_length_change (fuel : ℕ) (rng : ℕ → ℕ) (s : SnakeState) (d : ℕ)
    (r : ℕ) (s' : SnakeState) (h0 : s.gameOver = false) (_hd : d < 4)
    (h : moveSnake fuel rng s d = some (r, s')) :
    (r = 2 ∧ s.snakeLength < MAX_SNAKE_LENGTH → s'.snakeLength = s.snakeLength + 1) ∧
    (¬(r = 2 ∧ s.snakeLength < MAX_SNAKE_LENGTH) → s'.snakeLength = s.snakeLength) := by
  unfold moveSnake at h
  rw [h0] at h
  simp only [Bool.false_eq_true, if_false] at h
  split at h
  · simp only [Option.some.injEq, Prod.mk.injEq] at h
    obtain ⟨h1, h2⟩ := h
    subst h1; subst h2
    exact ⟨by omega, fun _ => rfl⟩
  · split at h
    · simp only [Option.some.injEq, Prod.mk.injEq] at h
      obtain ⟨h1, h2⟩ := h
      subst h1; subst h2
      exact ⟨by omega, fun _ => rfl⟩
    · split at h
      · split at h
        case isTrue hlt =>
          split at h
          · exact absurd h (by simp)
          · simp only [Option.some.injEq, Prod.mk.injEq] at h
            obtain ⟨h1, h2⟩ := h
            subst h1; subst h2
            refine ⟨fun _ => rfl, fun hn => absurd ⟨rfl, hlt⟩ hn⟩
        case isFalse hge =>
          simp only [Option.some.injEq, Prod.mk.injEq] at h
          obtain ⟨h1, h2⟩ := h
          subst h1; subst h2
          exact ⟨fun hc => absurd hc.2 hge, fun _ => rfl⟩
      · simp only [Option.some.injEq, Prod.mk.injEq] at h
        obtain ⟨h1, h2⟩ := h
        subst h1; subst h2
        exact ⟨by omega, fun _ => rfl⟩

/-- The state `moveSnake` produces from `csEat` with direction 1: the
food at (4,5) is eaten, the body grows to 4 and the food is regenerated
at (0,0) by the all-zero random stream. -/
def csEatRes : SnakeState :=
  { snake := setHead (shiftBody csEat.snake 3) ⟨4, 5⟩, snakeLength := 4,
    food := ⟨0, 0⟩, gameOver := false }

theorem C6_length_change_witness :
    ((2 : ℕ) = 2 ∧ csEat.snakeLength < MAX_SNAKE_LENGTH →
      csEatRes.snakeLength = csEat.snakeLength + 1) ∧
    (¬((2 : ℕ) = 2 ∧ csEat.snakeLength < MAX_SNAKE_LENGTH) →
      csEatRes.snakeLength = csEat.snakeLength) :=
  C6_length_change 1 rz csEat 1 2 csEatRes rfl (by decide) rfl

/-- C8: the wall handling is a toroidal wrap, so from any state whose
body lies inside [0,Matrix_Row) x [0,Matrix_Col), every `MoveSnake`
call (any direction, including edge-crossing moves) leaves every body
coordinate inside the board. -/
theorem C8_wrap_in_bounds (fuel : ℕ) (rng : ℕ → ℕ) (s : SnakeState) (d : ℕ)
    (r : ℕ) (s' : SnakeState)
    (hbody : ∀ i, i < s.snakeLength → inRange (s.snake i))
    (h : moveSnake fuel rng s d = some (r, s')) :
    ∀ i, i < s'.snakeLength → inRange (s'.snake i) := by
  unfold moveSnake at h
  split at h
  · simp only [Option.some.injEq, Prod.mk.injEq] at h
    obtain ⟨h1, h2⟩ := h
    subst h1; subst h2
    exact hbody
  · split at h
    · simp only [Option.some.injEq, Prod.mk.injEq] at h
      obtain ⟨h1, h2⟩ := h
      subst h1; subst h2
      exact hbody
    · split at h
      · simp only [Option.some.injEq, Prod.mk.injEq] at h
        obtain ⟨h1, h2⟩ := h
        subst h1; subst h2
        exact hbody
      · split at h
        · split at h
          · split at h
            · exact absurd h (by simp)
            · simp only [Option.some.injEq, Prod.mk.injEq] at h
              obtain ⟨h1, h2⟩ := h
              subst h1; subst h2
              intro i hi
              by_cases hz : i = 0
              · subst hz
                exact wrapPos_inRange (stepDir (s.snake 0) d)
              · have hset : setHead (shiftBody s.snake s.snakeLength) (newHead s d) i =
                    s.snake (i - 1) := by
                  simp only [setHead, shiftBody, if_neg hz]
                  rw [if_pos ⟨by omega, by simp at hi; omega⟩]
                simp only [hset]
                simp at hi
                exact hbody (i - 1) (by omega)
          · simp only [Option.some.injEq, Prod.mk.injEq] at h
            obtain ⟨h1, h2⟩ := h
            subst h1; subst h2
            intro i hi
            by_cases hz : i = 0
            · subst hz
              exact wrapPos_inRange (stepDir (s.snake 0) d)
            · have hset : setHead s.snake (newHead s d) i = s.snake i := by
                simp only [setHead, if_neg hz]
              simp only [hset]
              exact hbody i hi
        · simp only [Option.some.injEq, Prod.mk.injEq] at h
          obtain ⟨h1, h2⟩ := h
          subst h1; subst h2
          intro i hi
          by_cases hz : i = 0
          · subst hz
            exact wrapPos_inRange (stepDir (s.snake 0) d)
          · simp at hi
            have hset : setHead (shiftBody s.snake (s.snakeLength - 1)) (newHead s d) i =
                s.snake (i - 1) := by
              simp only [setHead, shiftBody, if_neg hz]
              rw [if_pos ⟨by omega, by omega⟩]
            simp only [hset]
            exact hbody (i - 1) (by omega)

/-- A concrete playing state whose head sits on the top edge, so that
moving up crosses the edge and wraps to the bottom row. -/
def csWrap : SnakeState :=
  { snake := fun i =>
      if i = 0 then ⟨0, 4⟩ else if i = 1 then ⟨1, 4⟩ else if i = 2 then ⟨2, 4⟩ else ⟨7, 7⟩,
    snakeLength := 3, food := ⟨5, 5⟩, gameOver := false }

/-- The state `moveSnake` produces from `csWrap` with direction 0: the
head wraps from row 0 to row 7. -/
def csWrapRes : SnakeState :=
  { csWrap with snake := setHead (shiftBody csWrap.snake 2) (newHead csWrap 0) }

theorem C8_wrap_in_bounds_witness : inRange (csWrapRes.snake 0) :=
  C8_wrap_in_bounds 1 rz csWrap 0 1 csWrapRes
    (by intro i hi; simp [csWrap] at hi; interval_cases i <;> decide) rfl 0 (by decide)

/-- C2 counterexample: starting from the `Snake_Init`-shaped state
`cs0` with the malformed direction 4, `MoveSnake` returns Normal (1)
but does NOT leave the state unchanged: the body-shift loop still runs,
so segment 1 becomes a copy of the head (4,4) instead of keeping its
old value (3,4). -/
theorem C2_counterexample :
    (moveSnake 1 rz cs0 4).map Prod.fst = some 1 ∧
    (moveSnake 1 rz cs0 4).map (fun p => p.2.snake 1) = some ⟨4, 4⟩ ∧
    cs0.snake 1 = ⟨3, 4⟩ ∧ (⟨4, 4⟩ : Point) ≠ ⟨3, 4⟩ := by
  refine ⟨by decide, by decide, by decide, by decide⟩

/-- C2 (amended): a direction outside {0,1,2,3} falls through the
`switch`, so the new head equals the old head and `MoveSnake` proceeds
as a normal zero-offset move: with an in-range head that does not equal
the second segment, any later segment, or the food, it returns Normal
(1) and keeps length, food and gameOver unchanged, but it does mutate
the body — the shift loop runs, so every segment `1 ≤ i < length`
becomes the old segment `i-1` and the head is duplicated into index 1;
the state is not left unchanged. -/
theorem C2_invalid_direction_amended (fuel : ℕ) (rng : ℕ → ℕ) (s : SnakeState)
    (d : ℕ) (h0 : s.gameOver = false) (hd : 4 ≤ d) (hin : inRange (s.snake 0))
    (hguard : ¬(1 < s.snakeLength ∧ s.snake 1 = s.snake 0))
    (hcol : ∀ i, 2 ≤ i → i < s.snakeLength → s.snake i ≠ s.snake 0)
    (hfood : s.snake 0 ≠ s.food) :
    moveSnake fuel rng s d =
      some (1, { s with snake := setHead (shiftBody s.snake (s.snakeLength - 1)) (s.snake 0) }) ∧
    (∀ i, 1 ≤ i → i < s.snakeLength →
      setHead (shiftBody s.snake (s.snakeLength - 1)) (s.snake 0) i = s.snake (i - 1)) := by
  have hnh : newHead s d = s.snake 0 := by
    unfold newHead
    rw [stepDir_default _ _ hd]
    exact wrapPos_id _ hin
  constructor
  · unfold moveSnake
    rw [h0]
    simp only [Bool.false_eq_true, if_false, hnh]
    rw [if_neg hguard, if_neg (by simp [selfHit_eq_false s.snake s.snakeLength _ hcol]),
      if_neg hfood]
  · intro i h1 h2
    simp only [setHead, shiftBody, if_neg (by omega : ¬ i = 0)]
    rw [if_pos ⟨h1, by omega⟩]

theorem C2_invalid_direction_amended_witness :
    moveSnake 1 rz cs0 4 =
      some (1, { cs0 with snake := setHead (shiftBody cs0.snake (cs0.snakeLength - 1)) (cs0.snake 0) }) ∧
    (∀ i, 1 ≤ i → i < cs0.snakeLength →
      setHead (shiftBody cs0.snake (cs0.snakeLength - 1)) (cs0.snake 0) i = cs0.snake (i - 1)) :=
  C2_invalid_direction_amended 1 rz cs0 4 rfl (by decide) (by decide) (by decide)
    (by intro i h2 h3; simp [cs0] at h3; have h4 : i = 2 := (by omega); subst h4; decide)
    (by decide)

/-- C3 counterexample: from the full-capacity state `cs64` (length 64,
head (0,0), food (0,1)) a move right returns Ate (2) but does NOT
regenerate the food: the food after the call is still (0,1), which is
now exactly the new head — i.e. it lies on the body, refuting
"a new food is regenerated at a position not on the body". -/
theorem C3_counterexample :
    (moveSnake 1 rz cs64 1).map Prod.fst = some 2 ∧
    (moveSnake 1 rz cs64 1).map (fun p => p.2.food) = some ⟨0, 1⟩ ∧
    cs64.food = ⟨0, 1⟩ ∧
    (moveSnake 1 rz cs64 1).map (fun p => p.2.snake 0) = some ⟨0, 1⟩ := by
  refine ⟨by decide, by decide, by decide, by decide⟩

/-- C3 (amended): when the new head equals the food and the snake is at
capacity (`snakeLength = MAX_SNAKE_LENGTH`), `MoveSnake` returns Ate
(2) and the length stays at capacity with no growth, but the food is
NOT regenerated: the whole growth branch (including the `GenerateFood`
call) is skipped, the only mutation is the head placement, and the
unchanged food position now coincides with the new head. -/
theorem C3_capacity_ate_amended (fuel : ℕ) (rng : ℕ → ℕ) (s : SnakeState) (d : ℕ)
    (h0 : s.gameOver = false) (hlen : s.snakeLength = MAX_SNAKE_LENGTH)
    (heat : newHead s d = s.food)
    (hguard : ¬(1 < s.snakeLength ∧ s.snake 1 = newHead s d))
    (hcol : selfHit s.snake s.snakeLength (newHead s d) = false) :
    moveSnake fuel rng s d = some (2, { s with snake := setHead s.snake (newHead s d) }) ∧
    ({ s with snake := setHead s.snake (newHead s d) }).food = s.food ∧
    ({ s with snake := setHead s.snake (newHead s d) }).snakeLength = MAX_SNAKE_LENGTH ∧
    setHead s.snake (newHead s d) 0 = s.food := by
  refine ⟨?_, rfl, hlen, by simp [setHead, heat]⟩
  unfold moveSnake
  rw [h0]
  simp only [Bool.false_eq_true, if_false]
  rw [if_neg hguard, if_neg (by simp [hcol]), if_pos heat, if_neg (by omega)]

theorem C3_capacity_ate_amended_witness :
    moveSnake 1 rz cs64 1 = some (2, { cs64 with snake := setHead cs64.snake (newHead cs64 1) }) ∧
    ({ cs64 with snake := setHead cs64.snake (newHead cs64 1) }).food = cs64.food ∧
    ({ cs64 with snake := setHead cs64.snake (newHead cs64 1) }).snakeLength = MAX_SNAKE_LENGTH ∧
    setHead cs64.snake (newHead cs64 1) 0 = cs64.food :=
  C3_capacity_ate_amended 1 rz cs64 1 rfl rfl (by decide) (by decide) (by decide)

end Snake

namespace Stars

theorem gridWrite_le (g : ℤ → ℤ → ℕ) (a b : ℤ) (v : ℕ) (hv : v ≤ MAX_PARTICLES)
    (hg : ∀ x y, g x y ≠ 0 → g x y ≤ MAX_PARTICLES) :
    ∀ x y, gridWrite g a b v x y ≠ 0 → gridWrite g a b v x y ≤ MAX_PARTICLES := by
  intro x y
  unfold gridWrite
  split
  · intro _
    exact hv
  · exact hg x y

theorem stepParticle_gridInv (s : PState) (i : ℕ) (hi : i < MAX_PARTICLES)
    (hs : gridInv s) : gridInv (stepParticle s i) := by
  unfold gridInv at hs ⊢
  simp only [stepParticle]
  split
  · split
    · exact gridWrite_le _ _ _ _ (by omega) hs
    · split
      · split
        · exact gridWrite_le _ _ _ _ (by omega) hs
        · exact hs
      · exact hs
  · exact hs

theorem foldl_gridInv (l : List ℕ) (hl : ∀ i ∈ l, i < MAX_PARTICLES) (s : PState)
    (hs : gridInv s) : gridInv (l.foldl stepParticle s) := by
  induction l generalizing s with
  | nil => exact hs
  | cons a t ih =>
    exact ih (fun i hi => hl i (List.mem_cons_of_mem a hi)) _
      (stepParticle_gridInv s a (hl a (List.mem_cons_self a t)) hs)

theorem spawnParticle_grid (col : Fin 8) (ch : Fin 6) (s : PState) (x y : ℤ) :
    (spawnParticle col ch s).grid x y = s.grid x y := by
  unfold spawnParticle
  split <;> rfl

theorem tick_gridInv (inp : TickInput) (s : PState) (hs : gridInv s) :
    gridInv (tick inp s) := by
  unfold tick physicsPhase
  apply foldl_gridInv _ (fun i hi => List.mem_range.mp hi)
  cases inp with
  | none => exact hs
  | some pr =>
    intro x y
    rw [spawnParticle_grid]
    exact hs x y

theorem reach_gridInv (s : PState) (h : Reach s) : gridInv s := by
  induction h with
  | start =>
    intro x y hxy
    exact absurd rfl hxy
  | step s inp hr ih => exact tick_gridInv inp s ih

theorem reach_traceState (l : List TickInput) : Reach (traceState l) := by
  induction l using List.reverseRecOn with
  | nil => exact Reach.start
  | append_singleton t i ih =>
    have h : traceState (t ++ [i]) = tick i (traceState t) := by
      unfold traceState
      rw [List.foldl_append]
      rfl
    rw [h]
    exact Reach.step _ i ih

/-- C1 counterexample: after the 8-tick trace `l1` the simulator is in
a reachable state in which cell (0,7) is non-zero (owner id 1, i.e.
slot 0), but the referenced particle is ACTIVE again — the spawn at
tick 8 reused slot 0 while the grid still references it — and its
stored color is the new spawn's green (0,255,0), not the red
(255,0,0) = `palette 0` it settled with; the cell's rendered color
changes and the referenced particle is no longer inactive. -/
theorem C1_counterexample :
    Reach (traceState l1) ∧
    (traceState l1).grid 0 7 = 1 ∧
    ((traceState l1).particles 0).active = true ∧
    ((traceState l1).particles 0).color = (0, 255, 0) ∧
    palette 0 = (255, 0, 0) :=
  ⟨reach_traceState l1, by decide, by decide, by decide, by decide⟩

/-- C1 (amended): at every reachable state, every non-zero settled-grid
cell holds a valid particle slot id (a value in [1, MAX_PARTICLES]),
and the settled-render pass draws for that cell the referenced slot's
CURRENT stored color; the referenced particle need not be inactive and
the rendered color need not be the color it settled with, because
`spawnParticle` reuses any inactive slot — including settled slots the
grid still references — making the particle active with a fresh
color. -/
theorem C1_settled_cell_amended (s : PState) (hs : Reach s) (x y : ℤ)
    (h : s.grid x y ≠ 0) :
    1 ≤ s.grid x y ∧ s.grid x y ≤ MAX_PARTICLES ∧
    settledColorAt s x y = some (s.particles (s.grid x y - 1)).color := by
  refine ⟨by omega, reach_gridInv s hs x y h, ?_⟩
  simp [settledColorAt, h]

theorem C1_settled_cell_amended_witness :
    1 ≤ (traceState l1).grid 0 7 ∧ (traceState l1).grid 0 7 ≤ MAX_PARTICLES ∧
    settledColorAt (traceState l1) 0 7 =
      some ((traceState l1).particles ((traceState l1).grid 0 7 - 1)).color :=
  C1_settled_cell_amended (traceState l1) (reach_traceState l1) 0 7 (by decide)

/-- C4 counterexample: in the reachable state after trace `l13`, cell
(3,7) is owned by id 2 (the slot-1 particle, which settled there and is
inactive); one more tick with no spawn lets the still-falling slot-0
particle reach `iy ≥ MATRIX_HEIGHT - 1`, and the settlement write
`grid[ix][MATRIX_HEIGHT-1] = i+1` is unconditional, so the occupied
cell's owner changes from 2 to 1 — refuting "that cell's owner never
changes again until simulator reinitialization". -/
theorem C4_counterexample :
    Reach (traceState l13) ∧
    (traceState l13).grid 3 7 = 2 ∧
    ((traceState l13).particles 1).active = false ∧
    (tick none (traceState l13)).grid 3 7 = 1 :=
  ⟨reach_traceState l13, by decide, by decide, by decide⟩

/-- C4 (amended): `spawnParticle` never modifies any settled-grid cell
— a respawn reuses a slot but leaves the grid untouched — so an
occupied cell's owner can change only through the settlement write of
another falling particle (which, as the counterexample shows, can in
fact overwrite an occupied cell when a particle passes row
MATRIX_HEIGHT-2 while the bottom cell is still empty and reaches the
bottom threshold only after the cell is claimed). -/
theorem C4_spawn_preserves_grid_amended (col : Fin 8) (ch : Fin 6) (s : PState)
    (x y : ℤ) : (spawnParticle col ch s).grid x y = s.grid x y :=
  spawnParticle_grid col ch s x y

end Stars

namespace MatrixUtil

theorem mapFin_inj : ∀ cfg : PanelCfg, Function.Injective (mapFin cfg) := by
  rintro ⟨r, fx, fy, sp⟩ ⟨⟨ax, hax⟩, ⟨ay, hay⟩⟩ ⟨⟨bx, hbx⟩, ⟨by', hby⟩⟩ h
  obtain ⟨rv, hrv⟩ := r
  simp only [Prod.mk.injEq, Fin.mk.injEq]
  interval_cases rv <;> rcases fx <;> rcases fy <;> rcases sp <;>
    simp [mapFin, mapIdx, MU_XY, rotXY, Stars.MATRIX_WIDTH, Stars.MATRIX_HEIGHT,
      Fin.mk.injEq] at h <;>
    split_ifs at h <;> omega

/-- C7: for every fixed panel configuration (any of the four rotations,
any flip flags, serpentine or progressive wiring, with the panel's
fixed W = H = 8), the mapping `MU_XY` restricted to in-range inputs is
a bijection onto [0, W*H); and for rotation 0, no flips, progressive
wiring, it equals the reference mapping y*W + x on every in-range
input. -/
theorem C7_mapping_bijection :
    (∀ cfg : PanelCfg, Function.Bijective (mapFin cfg)) ∧
    (∀ x : ℕ, x < 8 → ∀ y : ℕ, y < 8 → MU_XY cfg0 x y = y * 8 + x) := by
  constructor
  · intro cfg
    rw [Fintype.bijective_iff_injective_and_card]
    exact ⟨mapFin_inj cfg, by simp⟩
  · decide

theorem C7_mapping_bijection_witness : MU_XY cfg0 3 5 = 5 * 8 + 3 :=
  C7_mapping_bijection.2 3 (by decide) 5 (by decide)

end MatrixUtil
